import Mathlib

/-!
Verification of the streamdeck-podcastplayer controller.

The definitions below are a shallow embedding of the Python sources:
* `podplayer/streamdeck_handlers.py` — dial event handlers, debounce timers,
  pending values, and the delayed `apply_*` actions;
* `podplayer/streamdeck_ui.py` — the touchscreen render's choice of
  displayed values;
* `podplayer/podcast_manager.py` — episode-catalog ordering;
* `fetch_podcasts.py` — retention pruning;
* `podplayer/persistence.py` — playback-position persistence.

Machine integers are modelled as `Int` (Python integers are unbounded),
external calls that can raise are modelled by explicit `Bool` outcome
parameters, and `threading.Timer` state is modelled explicitly.
-/

namespace PodPlayer

/-! ## Volume dial debounce machine (`on_dial_change`, dial 0)

State of the dial-0 axis: the speaker's confirmed volume, the global
`pending_volume`, the global `volume_debounce_timer` (modelled by the target
value it would send, `none` when no timer is armed), and the list of volume
commands actually issued to the device (`speaker.volume = v`). -/

/-- `new_vol = max(0, min(100, current_vol + delta))` from `on_dial_change`. -/
def new_vol (current_vol delta : Int) : Int :=
  max 0 (min 100 (current_vol + delta))

structure VolumeState where
  confirmed : Int
  pending : Option Int
  timer : Option Int
  sent : List Int
  deriving DecidableEq, Repr

/-- One `DialEventType.TURN` event on dial 0, from `on_dial_change`.
`debounce` is `dial_debounce_seconds > 0`.  With `delta == 0` the handler
returns early; otherwise it cancels the existing timer, computes the new
volume from the pending value (falling back to `speaker.volume`), sets the
pending value, and either arms a new timer or (debounce disabled) calls
`apply_volume_change` synchronously, whose success path sets the volume and
clears pending. -/
def on_volume_turn (debounce : Bool) (s : VolumeState) (delta : Int) : VolumeState :=
  if delta = 0 then s
  else
    let s1 : VolumeState := { s with timer := none }
    let current_vol := s1.pending.getD s1.confirmed
    let nv := new_vol current_vol delta
    let s2 : VolumeState := { s1 with pending := some nv }
    if debounce then { s2 with timer := some nv }
    else { confirmed := nv, pending := none, timer := none, sent := s2.sent ++ [nv] }

/-- The armed debounce timer elapsing: `apply_volume_change` runs with the
captured target value, issues the device command and clears pending. -/
def fire_volume_timer (s : VolumeState) : VolumeState :=
  match s.timer with
  | none => s
  | some v => { confirmed := v, pending := none, timer := none, sent := s.sent ++ [v] }

/-- Process a sequence of dial-0 turn events. -/
def run_volume_turns (debounce : Bool) (s : VolumeState) (ds : List Int) : VolumeState :=
  ds.foldl (on_volume_turn debounce) s

/-- The value accumulated by a sequence of turns: each turn clamps the
running value plus its delta into `[0, 100]`. -/
def accum_volume (c : Int) (ds : List Int) : Int :=
  ds.foldl new_vol c

lemma accum_volume_nil (c : Int) : accum_volume c [] = c := rfl

lemma accum_volume_cons (c d : Int) (ds : List Int) :
    accum_volume c (d :: ds) = accum_volume (new_vol c d) ds := rfl

lemma on_volume_turn_ne (s : VolumeState) {d : Int} (hd : d ≠ 0) :
    on_volume_turn true s d =
      { confirmed := s.confirmed,
        pending := some (new_vol (s.pending.getD s.confirmed) d),
        timer := some (new_vol (s.pending.getD s.confirmed) d),
        sent := s.sent } := by
  simp [on_volume_turn, hd]

/-- Key structural lemma: processing a nonempty run of nonzero turns in
debounced mode leaves the confirmed volume and the sent-command log
untouched, and ends with pending value and armed timer both equal to the
accumulated value. -/
lemma run_volume_turns_spec :
    ∀ (ds : List Int) (s : VolumeState), (∀ d ∈ ds, d ≠ 0) →
      run_volume_turns true s ds =
        { confirmed := s.confirmed,
          pending := if ds.isEmpty then s.pending
            else some (accum_volume (s.pending.getD s.confirmed) ds),
          timer := if ds.isEmpty then s.timer
            else some (accum_volume (s.pending.getD s.confirmed) ds),
          sent := s.sent } := by
  intro ds
  induction ds with
  | nil => intro s _; simp [run_volume_turns]
  | cons d ds ih =>
    intro s h
    have hd : d ≠ 0 := h d (List.mem_cons_self d ds)
    have hrest : ∀ x ∈ ds, x ≠ 0 := fun x hx => h x (List.mem_cons_of_mem d hx)
    have hstep : run_volume_turns true s (d :: ds) =
        run_volume_turns true (on_volume_turn true s d) ds := rfl
    rw [hstep, on_volume_turn_ne s hd, ih _ hrest]
    rcases ds with _ | ⟨d2, ds2⟩
    · simp [accum_volume_cons, accum_volume_nil]
    · simp [accum_volume_cons]

/-! ## Scrub dial machine (`on_dial_change`, dial 1, TURN)

State of the dial-1 axis: `pending_scrub_position`, `scrub_debounce_timer`
(modelled by the target position it would send), and the seek commands
issued to the device. The cached playback position and duration enter as
parameters (`get_playback_info` result). -/

/-- `new_position = max(0, min(duration, current_pos + delta * 5))` from
`on_dial_change` (a turn scrubs by 5 seconds per increment). -/
def new_position (duration current_pos delta : Int) : Int :=
  max 0 (min duration (current_pos + delta * 5))

structure ScrubState where
  pending : Option Int
  timer : Option Int
  sent : List Int
  deriving DecidableEq, Repr

/-- One `DialEventType.TURN` event on dial 1, from `on_dial_change`.
With `delta == 0` the handler returns early; otherwise it cancels the
existing timer, reads cached position/duration, and only when
`duration > 0` computes the clamped target, sets the pending scrub
position, and arms (or, debounce disabled, runs) `apply_scrub_change`,
whose every path clears pending. -/
def on_scrub_turn (debounce : Bool) (position duration : Int)
    (s : ScrubState) (delta : Int) : ScrubState :=
  if delta = 0 then s
  else
    let s1 : ScrubState := { s with timer := none }
    let current_pos := s1.pending.getD position
    if 0 < duration then
      let np := new_position duration current_pos delta
      let s2 : ScrubState := { s1 with pending := some np }
      if debounce then { s2 with timer := some np }
      else { pending := none, timer := none, sent := s2.sent ++ [np] }
    else s1

/-- `new_brightness = max(0, min(100, current_brightness + delta * 5))`
from `on_dial_change`, dial 3. -/
def new_brightness (current_brightness delta : Int) : Int :=
  max 0 (min 100 (current_brightness + delta * 5))

/-! ## Touchscreen render value selection (`update_touchscreen_ui`)

Only the state-relevant slice of the render is modelled: which volume value
fills the volume bar and which position fills the playback bar. -/

structure PlaybackInfo where
  position : Int
  duration : Int
  state : String
  title : String
  uri : String
  deriving Repr

structure TouchscreenRender where
  volume : Int
  vol_pct : Int
  position : Int
  duration : Int
  deriving Repr

/-- The value-selection logic of `update_touchscreen_ui`: the volume bar is
drawn from `pending_volume` when it is not `None` and from `speaker.volume`
otherwise; the playback bar from `pending_scrub_position` when it is not
`None` and from the cached `playback["position"]` otherwise; the drawn
percentage additionally clamps into `[0, 100]`. -/
def update_touchscreen_ui (pending_volume pending_scrub_position : Option Int)
    (speaker_volume : Int) (playback : PlaybackInfo) : TouchscreenRender :=
  let volume : Int :=
    match pending_volume with
    | some v => v
    | none => speaker_volume
  let vol_pct := max 0 (min 100 volume)
  let position : Int :=
    match pending_scrub_position with
    | some p => p
    | none => playback.position
  { volume := volume, vol_pct := vol_pct, position := position,
    duration := playback.duration }

/-! ## Delayed actions with exception outcomes (`apply_*_change`)

Each delayed action is modelled as a straight-line trace of the external
calls it performs, plus the final value of the axis's pending global.
`Bool` parameters stand for whether each fallible external call returns
normally (`true`) or raises (`false`); control then follows the source's
`try`/`except`/`finally` routing. A call is recorded in the trace at its
invocation, whether or not it raises. -/

inductive Act where
  | logMsg
  | logError
  | setVolume (v : Int)
  | seek (t : Int)
  | playEpisode (idx : Int)
  | forceRefresh
  | repaint
  | clearPending
  deriving DecidableEq, Repr

structure ApplyResult where
  trace : List Act
  pending : Option Int
  deriving DecidableEq, Repr

/-- `apply_volume_change`: logs, assigns `speaker.volume` (may raise),
clears `pending_volume`, repaints (may raise); the `except` arm logs the
error and clears `pending_volume`. -/
def apply_volume_change (target : Int) (deviceOk uiOk : Bool) : ApplyResult :=
  if deviceOk then
    if uiOk then
      { trace := [Act.logMsg, Act.setVolume target, Act.clearPending, Act.repaint],
        pending := none }
    else
      { trace := [Act.logMsg, Act.setVolume target, Act.clearPending, Act.repaint,
                  Act.logError, Act.clearPending],
        pending := none }
  else
    { trace := [Act.logMsg, Act.logError, Act.clearPending], pending := none }

/-- `apply_scrub_change`: seeks (may raise), force-refreshes the cache (may
raise); the `except` arm logs and attempts a swallowed best-effort refresh;
the `finally` arm always clears `pending_scrub_position` and repaints. -/
def apply_scrub_change (target : Int) (seekOk refreshOk : Bool) : ApplyResult :=
  if seekOk then
    if refreshOk then
      { trace := [Act.logMsg, Act.seek target, Act.forceRefresh,
                  Act.clearPending, Act.repaint],
        pending := none }
    else
      { trace := [Act.logMsg, Act.seek target, Act.forceRefresh, Act.logError,
                  Act.forceRefresh, Act.clearPending, Act.repaint],
        pending := none }
  else
    { trace := [Act.logMsg, Act.seek target, Act.logError, Act.forceRefresh,
                Act.clearPending, Act.repaint],
      pending := none }

/-- `apply_episode_change`: plays the episode (may raise), clears both
pending episode globals, force-refreshes (may raise), repaints (may raise);
the `except` arm logs the error and clears both pending globals. -/
def apply_episode_change (idx : Int) (playOk refreshOk uiOk : Bool) : ApplyResult :=
  if playOk then
    if refreshOk then
      if uiOk then
        { trace := [Act.playEpisode idx, Act.clearPending, Act.forceRefresh, Act.repaint],
          pending := none }
      else
        { trace := [Act.playEpisode idx, Act.clearPending, Act.forceRefresh, Act.repaint,
                    Act.logError, Act.clearPending],
          pending := none }
    else
      { trace := [Act.playEpisode idx, Act.clearPending, Act.forceRefresh,
                  Act.logError, Act.clearPending],
        pending := none }
  else
    { trace := [Act.playEpisode idx, Act.logError, Act.clearPending], pending := none }

/-! ## Timer-liveness system (`on_dial_change`, all dials)

To make the "at most one timer per axis" invariant a real statement, OS
timers are modelled with identities: `stored` is the per-axis global
variable (`volume_debounce_timer`, ...) holding the id of the most recently
created timer for that axis; `live` is the multiset of OS timers that are
armed and have neither fired nor been cancelled. `threading.Timer.cancel`
on the stored object removes exactly that timer from `live` (a no-op when
it has already fired); starting a timer appends a fresh id. -/

inductive Axis where
  | volume
  | scrub
  | episode
  | trackSkip
  deriving DecidableEq, Repr

structure TimerSys where
  stored : Axis → Option Nat
  live : List (Axis × Nat)
  nextId : Nat

/-- `if <axis>_debounce_timer: <axis>_debounce_timer.cancel()`. -/
def cancel_timer (a : Axis) (s : TimerSys) : TimerSys :=
  match s.stored a with
  | some t => { s with live := s.live.erase (a, t) }
  | none => s

/-- `<axis>_debounce_timer = threading.Timer(...); <axis>_debounce_timer.start()`. -/
def arm_timer (a : Axis) (s : TimerSys) : TimerSys :=
  { stored := fun b => if b = a then some s.nextId else s.stored b,
    live := s.live ++ [(a, s.nextId)],
    nextId := s.nextId + 1 }

/-- The dial events that touch debounce timers, with the environment facts
each handler path branches on: the scrub handler only schedules when the
cached `duration > 0`; the dial-2 handler takes the track-skip path when
Spotify is playing, and the episode path only proceeds to scheduling when a
podcast slug is detected and it has local files (`envOk`). -/
inductive DeckEvent where
  | volumeTurn (delta : Int)
  | scrubTurn (delta : Int) (duration : Int)
  | trackSkipTurn (delta : Int)
  | episodeTurn (delta : Int) (envOk : Bool)
  | timerFired (a : Axis) (t : Nat)

/-- One step of `on_dial_change` (plus timer expiry) restricted to its
effect on debounce-timer state. Every scheduling path first cancels the
axis's stored timer; `debounce` is `dial_debounce_seconds > 0` (when false
the action runs synchronously and no timer is created). -/
def deck_step (debounce : Bool) (s : TimerSys) (e : DeckEvent) : TimerSys :=
  match e with
  | .volumeTurn d =>
      if d = 0 then s
      else
        let s1 := cancel_timer .volume s
        if debounce then arm_timer .volume s1 else s1
  | .scrubTurn d dur =>
      if d = 0 then s
      else
        let s1 := cancel_timer .scrub s
        if 0 < dur then (if debounce then arm_timer .scrub s1 else s1) else s1
  | .trackSkipTurn d =>
      if d = 0 then s
      else
        let s1 := cancel_timer .trackSkip s
        if debounce then arm_timer .trackSkip s1 else s1
  | .episodeTurn d envOk =>
      if d = 0 then s
      else
        let s1 := cancel_timer .episode s
        if envOk then (if debounce then arm_timer .episode s1 else s1) else s1
  | .timerFired a t => { s with live := s.live.erase (a, t) }

def timer_sys_init : TimerSys := { stored := fun _ => none, live := [], nextId := 0 }

def deck_run (debounce : Bool) (es : List DeckEvent) : TimerSys :=
  es.foldl (deck_step debounce) timer_sys_init

/-- Number of live (armed, unfired, uncancelled) timers for an axis. -/
def axis_live_count (s : TimerSys) (a : Axis) : Nat :=
  (s.live.filter (fun p => p.1 = a)).length

/-- Inductive invariant: live timers are distinct, every live timer is the
one currently held in its axis's global variable, and all issued ids are
below the fresh-id counter. -/
def TimerInv (s : TimerSys) : Prop :=
  s.live.Nodup ∧ (∀ p ∈ s.live, s.stored p.1 = some p.2) ∧
    (∀ p ∈ s.live, p.2 < s.nextId)

lemma timer_inv_init : TimerInv timer_sys_init := by
  refine ⟨List.nodup_nil, ?_, ?_⟩ <;> intro p hp <;> simp [timer_sys_init] at hp

lemma timer_inv_cancel (a : Axis) {s : TimerSys} (h : TimerInv s) :
    TimerInv (cancel_timer a s) := by
  obtain ⟨hnd, hst, hid⟩ := h
  unfold cancel_timer
  cases hsa : s.stored a with
  | none => exact ⟨hnd, hst, hid⟩
  | some t =>
    refine ⟨hnd.erase _, ?_, ?_⟩ <;> intro p hp <;>
      exact (by first
        | exact hst p (List.mem_of_mem_erase hp)
        | exact hid p (List.mem_of_mem_erase hp))

lemma cancel_timer_no_axis (a : Axis) {s : TimerSys} (h : TimerInv s) :
    ∀ p ∈ (cancel_timer a s).live, p.1 ≠ a := by
  obtain ⟨hnd, hst, _⟩ := h
  unfold cancel_timer
  cases hsa : s.stored a with
  | none =>
    intro p hp hpa
    have := hst p hp
    rw [hpa, hsa] at this
    exact Option.noConfusion this
  | some t =>
    intro p hp hpa
    simp only at hp
    have hmem : p ≠ (a, t) ∧ p ∈ s.live := (hnd.mem_erase_iff).mp hp
    have hpt : s.stored p.1 = some p.2 := hst p hmem.2
    rw [hpa, hsa] at hpt
    have : p = (a, t) := by
      obtain ⟨p1, p2⟩ := p
      simp only at hpa
      subst hpa
      simpa using hpt.symm
    exact hmem.1 this

lemma timer_inv_arm (a : Axis) {s : TimerSys} (h : TimerInv s)
    (hno : ∀ p ∈ s.live, p.1 ≠ a) : TimerInv (arm_timer a s) := by
  obtain ⟨hnd, hst, hid⟩ := h
  refine ⟨?_, ?_, ?_⟩
  · rw [arm_timer]
    refine List.Nodup.append hnd (List.nodup_singleton _) ?_
    intro p hp hp2
    have hpe : p = (a, s.nextId) := by simpa using hp2
    have hlt : p.2 < s.nextId := hid p hp
    rw [hpe] at hlt
    exact lt_irrefl _ hlt
  · intro p hp
    rw [arm_timer] at hp
    simp only [List.mem_append, List.mem_singleton] at hp
    rcases hp with hp | hp
    · have hne : p.1 ≠ a := hno p hp
      simpa [arm_timer, hne] using hst p hp
    · subst hp
      simp [arm_timer]
  · intro p hp
    rw [arm_timer] at hp
    simp only [List.mem_append, List.mem_singleton] at hp
    rcases hp with hp | hp
    · exact Nat.lt_succ_of_lt (hid p hp)
    · subst hp
      exact Nat.lt_succ_self _

lemma timer_inv_fire (a : Axis) (t : Nat) {s : TimerSys} (h : TimerInv s) :
    TimerInv { s with live := s.live.erase (a, t) } := by
  obtain ⟨hnd, hst, hid⟩ := h
  exact ⟨hnd.erase _, fun p hp => hst p (List.mem_of_mem_erase hp),
    fun p hp => hid p (List.mem_of_mem_erase hp)⟩

lemma timer_inv_cancel_arm (a : Axis) (debounce : Bool) {s : TimerSys}
    (h : TimerInv s) :
    TimerInv (if debounce then arm_timer a (cancel_timer a s) else cancel_timer a s) := by
  cases debounce with
  | false => simpa using timer_inv_cancel a h
  | true =>
    simp only [if_pos]
    exact timer_inv_arm a (timer_inv_cancel a h) (cancel_timer_no_axis a h)

lemma timer_inv_step (debounce : Bool) (e : DeckEvent) {s : TimerSys}
    (h : TimerInv s) : TimerInv (deck_step debounce s e) := by
  cases e with
  | volumeTurn d =>
    by_cases hd : d = 0
    · simpa [deck_step, hd] using h
    · simpa [deck_step, hd] using timer_inv_cancel_arm .volume debounce h
  | scrubTurn d dur =>
    by_cases hd : d = 0
    · simpa [deck_step, hd] using h
    · by_cases hdur : 0 < dur
      · simpa [deck_step, hd, hdur] using timer_inv_cancel_arm .scrub debounce h
      · simpa [deck_step, hd, hdur] using timer_inv_cancel .scrub h
  | trackSkipTurn d =>
    by_cases hd : d = 0
    · simpa [deck_step, hd] using h
    · simpa [deck_step, hd] using timer_inv_cancel_arm .trackSkip debounce h
  | episodeTurn d envOk =>
    by_cases hd : d = 0
    · simpa [deck_step, hd] using h
    · cases envOk with
      | true => simpa [deck_step, hd] using timer_inv_cancel_arm .episode debounce h
      | false => simpa [deck_step, hd] using timer_inv_cancel .episode h
  | timerFired a t => exact timer_inv_fire a t h

lemma timer_inv_run (debounce : Bool) (es : List DeckEvent) :
    TimerInv (deck_run debounce es) := by
  rw [deck_run]
  induction es using List.reverseRecOn with
  | nil => exact timer_inv_init
  | append_singleton es e ih =>
    rw [List.foldl_append]
    exact timer_inv_step debounce e ih

lemma length_le_one_of_all_eq {α : Type _} {l : List α} (hnd : l.Nodup)
    (h : ∀ x ∈ l, ∀ y ∈ l, x = y) : l.length ≤ 1 := by
  match l with
  | [] => simp
  | [x] => simp
  | x :: y :: tl =>
    exfalso
    have hxy : x = y := h x (by simp) y (by simp)
    have := List.nodup_cons.mp hnd
    exact this.1 (hxy ▸ List.mem_cons_self y tl)

lemma axis_live_count_le_one {s : TimerSys} (h : TimerInv s) (a : Axis) :
    axis_live_count s a ≤ 1 := by
  obtain ⟨hnd, hst, _⟩ := h
  rw [axis_live_count]
  refine length_le_one_of_all_eq (hnd.filter _) ?_
  intro x hx y hy
  have hx' := List.mem_filter.mp hx
  have hy' := List.mem_filter.mp hy
  have hxa : x.1 = a := by simpa using hx'.2
  have hya : y.1 = a := by simpa using hy'.2
  have h1 : s.stored a = some x.2 := hxa ▸ hst x hx'.1
  have h2 : s.stored a = some y.2 := hya ▸ hst y hy'.1
  have : x.2 = y.2 := by
    have := h1.symm.trans h2
    exact Option.some.inj this
  obtain ⟨x1, x2⟩ := x
  obtain ⟨y1, y2⟩ := y
  simp only at hxa hya this
  rw [hxa, hya, this]

/-! ## Episode catalog ordering (`podcast_manager.list_podcast_files`)

A local episode file carries its basename, its raw modification time, the
ISO rendering `time.strftime("%Y-%m-%dT%H:%M:%S", localtime(mtime))` of
that modification time, and the optional `episode_metadata` database row
`(publication_datetime, publication_date)` for its relative path (`none`
when the table has no row; each column may itself be SQL NULL). Python's
`list.sort` is a stable comparison sort; it is modelled by insertion sort,
which is stable for the same comparator. -/

structure EpisodeFile where
  basename : String
  mtime : Int
  mtimeIso : String
  dbRow : Option (Option String × Option String)
  deriving DecidableEq, Repr

/-- Python truthiness of a nullable string column (`if result[0]:`):
false for NULL and for the empty string. -/
def truthy : Option String → Bool
  | some s => s ≠ ""
  | none => false

/-- `len(basename) >= 10 and basename[:10].replace("-", "").isdigit()` —
`str.isdigit` is false on the empty string. Stripping the dashes and the
all-digits test are stated on the character list of the 10-character
prefix. -/
def filename_date_ok (basename : String) : Bool :=
  decide (basename.length ≥ 10) &&
    (let t := (basename.take 10).data.filter (fun c => c ≠ '-')
     !t.isEmpty && t.all Char.isDigit)

/-- The order key assigned to one file inside the database loop of
`list_podcast_files`: prefer `publication_datetime`, then
`publication_date`, then the filename's leading `YYYY-MM-DD` prefix, then
the ISO-formatted file modification time. -/
def order_key (f : EpisodeFile) : String :=
  match f.dbRow with
  | some (dt, d) =>
    if truthy dt then dt.getD ""
    else if truthy d then d.getD ""
    else if filename_date_ok f.basename then f.basename.take 10
    else f.mtimeIso
  | none =>
    if filename_date_ok f.basename then f.basename.take 10
    else f.mtimeIso

/-- Python compares strings lexicographically by code point; in Lean that
is the lexicographic order on `String.data` (the list of characters). -/
def str_le (a b : String) : Prop := a.data ≤ b.data

instance : DecidableRel str_le := fun a b =>
  inferInstanceAs (Decidable (a.data ≤ b.data))

/-- `file_datetimes.get(file, "")`, the key function of the final
`files.sort(key=..., reverse=True)`. The key loop only runs when
`os.path.exists(db_path)` is true: then every file was assigned its
`order_key`. When the database file does not exist, no exception is
raised, the dict stays empty, and every lookup yields the default `""`. -/
def file_key (dbExists : Bool) (f : EpisodeFile) : String :=
  if dbExists then order_key f else ""

/-- Descending comparison by sort key (`sort(key=..., reverse=True)`). -/
def key_ge (dbExists : Bool) (a b : EpisodeFile) : Prop :=
  str_le (file_key dbExists b) (file_key dbExists a)

/-- Descending comparison by raw modification time
(`sort(key=os.path.getmtime, reverse=True)`). -/
def mtime_ge (a b : EpisodeFile) : Prop := b.mtime ≤ a.mtime

instance (dbExists : Bool) : DecidableRel (key_ge dbExists) := fun a b =>
  inferInstanceAs (Decidable (str_le (file_key dbExists b) (file_key dbExists a)))

instance : DecidableRel mtime_ge := fun a b =>
  inferInstanceAs (Decidable (b.mtime ≤ a.mtime))

instance (dbExists : Bool) : IsTotal EpisodeFile (key_ge dbExists) :=
  ⟨fun a b =>
    ((le_total (file_key dbExists b).data (file_key dbExists a).data).imp id id : _)⟩

instance (dbExists : Bool) : IsTrans EpisodeFile (key_ge dbExists) :=
  ⟨fun _ _ _ h1 h2 => le_trans (h2 : _ ≤ _) (h1 : _ ≤ _)⟩

instance : IsTotal EpisodeFile mtime_ge :=
  ⟨fun a b => (le_total b.mtime a.mtime).imp id id⟩

instance : IsTrans EpisodeFile mtime_ge :=
  ⟨fun _ _ _ h1 h2 => le_trans h2 h1⟩

/-- `list_podcast_files` on the files of one feed directory. `dbOk = false`
is the `except` path (something in the lookup block raised): the whole
list falls back to modification-time ordering. Otherwise the files are
stably sorted descending by `file_datetimes.get(file, "")`, compared as
strings — genuine order keys when the database file exists (`dbExists`),
the constant `""` when it does not. -/
def list_podcast_files (dbExists dbOk : Bool) (files : List EpisodeFile) :
    List EpisodeFile :=
  if dbOk then List.insertionSort (key_ge dbExists) files
  else List.insertionSort mtime_ge files

/-- With the database file missing every sort key is `""`, so the stable
sort is the identity: the files come back in raw directory-listing
order. -/
lemma insertionSort_missing_db :
    ∀ files : List EpisodeFile, List.insertionSort (key_ge false) files = files := by
  intro files
  induction files with
  | nil => rfl
  | cons f fs ih =>
    have hstep : List.insertionSort (key_ge false) (f :: fs) =
        List.orderedInsert (key_ge false) f (List.insertionSort (key_ge false) fs) := rfl
    rw [hstep, ih]
    cases fs with
    | nil => rfl
    | cons g gs =>
      have h : key_ge false f g := le_refl ("" : String).data
      rw [List.orderedInsert, if_pos h]

/-! ## Retention pruning (`fetch_podcasts.cleanup_old_episodes`)

The model returns the pair (files kept, files removed): the directory's
`.mp3` entries are sorted newest-first by modification time and every file
past `EPISODES_TO_KEEP` is removed. -/

structure LocalFile where
  name : String
  mtime : Int
  deriving DecidableEq, Repr

/-- `f.endswith(".mp3")`, stated on character lists so it evaluates. -/
def is_mp3 (name : String) : Bool := ".mp3".data.isSuffixOf name.data

def local_mtime_ge (a b : LocalFile) : Prop := b.mtime ≤ a.mtime

instance : DecidableRel local_mtime_ge := fun a b =>
  inferInstanceAs (Decidable (b.mtime ≤ a.mtime))

instance : IsTotal LocalFile local_mtime_ge :=
  ⟨fun a b => (le_total b.mtime a.mtime).imp id id⟩

instance : IsTrans LocalFile local_mtime_ge :=
  ⟨fun _ _ _ h1 h2 => le_trans h2 h1⟩

/-- `cleanup_old_episodes`: list the directory's `.mp3` files sorted by
modification time descending; `files[EPISODES_TO_KEEP:]` are removed
(`os.remove`), the rest remain. Returns (remaining, removed). -/
def cleanup_old_episodes (episodes_to_keep : Nat) (entries : List LocalFile) :
    List LocalFile × List LocalFile :=
  let files := List.insertionSort local_mtime_ge
    (entries.filter (fun f => is_mp3 f.name))
  (files.take episodes_to_keep, files.drop episodes_to_keep)

/-! ## Playback-position persistence (`podplayer/persistence.py`)

The in-memory `episode_positions` dict is modelled as a partial map
`String → Option Int`; the database table `episode_positions` as the list
of its rows; a write to the table as the row written (if any). -/

/-- `save_position_to_db`: refuses empty URIs and non-positive positions,
otherwise writes (INSERT OR REPLACE) one row. Returns the row written. -/
def save_position_to_db (uri : String) (position : Int) : Option (String × Int) :=
  if uri = "" ∨ position ≤ 0 then none
  else some (uri, position)

/-- `save_current_position`: reads `uri`/`position` from the playback info
and, only when the URI is non-empty and the position strictly positive,
stores the position in the in-memory map and the database. Returns the new
map and the row written. -/
def save_current_position (episode_positions : String → Option Int)
    (uri : String) (position : Int) :
    (String → Option Int) × Option (String × Int) :=
  if uri ≠ "" ∧ 0 < position then
    (Function.update episode_positions uri (some position),
     save_position_to_db uri position)
  else (episode_positions, none)

/-- `load_positions_from_db`: fold over the table rows, loading into the
in-memory map only the rows with `position > 0`. -/
def load_positions_from_db (rows : List (String × Int))
    (episode_positions : String → Option Int) : String → Option Int :=
  rows.foldl
    (fun m row => if 0 < row.2 then Function.update m row.1 (some row.2) else m)
    episode_positions

/-! ## Claim theorems -/

/-- C1: For every nonempty sequence of nonzero same-axis dial-turn deltas
arriving within the debounce window (each turn cancelling the previously
scheduled action and accumulating its delta onto the pending value),
no device command is issued during the turns, and when the delay elapses
exactly one device command is issued, carrying the final accumulated
(clamped) value. In particular, with confirmed volume 50 and two
consecutive +10 turns, the device receives the single call setting
volume 70 — not 60 then 70. -/
theorem volume_debounce_single_final_send (c : Int) (ds : List Int)
    (hne : ds ≠ []) (hnz : ∀ d ∈ ds, d ≠ 0) :
    (run_volume_turns true ⟨c, none, none, []⟩ ds).sent = [] ∧
    (run_volume_turns true ⟨c, none, none, []⟩ ds).pending =
      some (accum_volume c ds) ∧
    (fire_volume_timer (run_volume_turns true ⟨c, none, none, []⟩ ds)).sent =
      [accum_volume c ds] ∧
    (fire_volume_timer (run_volume_turns true ⟨50, none, none, []⟩ [10, 10])).sent
      = [70] := by
  have hemp : ds.isEmpty = false := by
    cases ds with
    | nil => exact absurd rfl hne
    | cons d tl => rfl
  have h := run_volume_turns_spec ds ⟨c, none, none, []⟩ hnz
  rw [h]
  refine ⟨rfl, by simp [hemp], ?_, by decide⟩
  simp [fire_volume_timer, hemp]

/-- Witness for C1 at confirmed volume 50 and turn deltas `[10, 10]`. -/
theorem volume_debounce_single_final_send_witness :
    (([10, 10] : List Int) ≠ [] ∧ ∀ d ∈ ([10, 10] : List Int), d ≠ 0) ∧
    ((run_volume_turns true ⟨50, none, none, []⟩ [10, 10]).sent = [] ∧
     (run_volume_turns true ⟨50, none, none, []⟩ [10, 10]).pending =
       some (accum_volume 50 [10, 10]) ∧
     (fire_volume_timer (run_volume_turns true ⟨50, none, none, []⟩ [10, 10])).sent =
       [accum_volume 50 [10, 10]] ∧
     (fire_volume_timer (run_volume_turns true ⟨50, none, none, []⟩ [10, 10])).sent
       = [70]) :=
  ⟨⟨by decide, by decide⟩,
   volume_debounce_single_final_send 50 [10, 10] (by decide) (by decide)⟩

/-- C2: For every repaint, the effective display value of an axis equals
the pending value whenever one is set and exactly the confirmed
device/cache value otherwise: the volume bar renders `pending_volume` when
it is not `None` and `speaker.volume` otherwise; the playback position
renders `pending_scrub_position` when it is not `None` and the cached
position otherwise. -/
theorem render_effective_values (pv ps : Option Int) (sv : Int) (pb : PlaybackInfo) :
    (update_touchscreen_ui pv ps sv pb).volume = pv.getD sv ∧
    (update_touchscreen_ui pv ps sv pb).position = ps.getD pb.position := by
  cases pv <;> cases ps <;> simp [update_touchscreen_ui]

/-- C3: Once a scheduled delayed action runs, the axis's pending value is
`None` afterwards, on every execution path — device call succeeding or
raising — through `apply_volume_change`, `apply_scrub_change` and
`apply_episode_change`. -/
theorem apply_actions_clear_pending (t idx : Int) (ok1 ok2 ok3 : Bool) :
    (apply_volume_change t ok1 ok2).pending = none ∧
    (apply_scrub_change t ok1 ok2).pending = none ∧
    (apply_episode_change idx ok1 ok2 ok3).pending = none := by
  refine ⟨?_, ?_, ?_⟩ <;> cases ok1 <;> cases ok2 <;> cases ok3 <;> rfl

/-- C4 counterexample: the claim asserts that every axis's delayed action,
on fire, triggers a forced playback-state refresh, and that on failure a
best-effort refresh/repaint is attempted for every axis. The volume action
never performs a forced refresh even on success; on failure the volume
action attempts neither refresh nor repaint, and the episode action
attempts neither refresh nor repaint. -/
theorem apply_sequence_claim_counterexample :
    Act.forceRefresh ∉ (apply_volume_change 70 true true).trace ∧
    (Act.repaint ∉ (apply_volume_change 70 false true).trace ∧
     Act.forceRefresh ∉ (apply_volume_change 70 false true).trace) ∧
    (Act.repaint ∉ (apply_episode_change 0 false true true).trace ∧
     Act.forceRefresh ∉ (apply_episode_change 0 false true true).trace) := by
  decide

/-- C4 amended: on fire, each delayed action performs the real device
mutation and always ends with the pending value cleared, but the exact
sequences differ per axis. Success paths: the volume action sets the
volume, clears pending, then repaints (no forced refresh); the scrub
action seeks, forces a refresh, clears pending, then repaints; the episode
action plays the episode, clears pending, forces a refresh, then repaints.
Failure paths: each action logs the error and clears pending; only the
scrub action additionally attempts a best-effort forced refresh and still
repaints — the volume and episode actions end after logging and
clearing. -/
theorem apply_sequences_amended (t idx : Int) :
    (apply_volume_change t true true).trace =
      [Act.logMsg, Act.setVolume t, Act.clearPending, Act.repaint] ∧
    (apply_scrub_change t true true).trace =
      [Act.logMsg, Act.seek t, Act.forceRefresh, Act.clearPending, Act.repaint] ∧
    (apply_episode_change idx true true true).trace =
      [Act.playEpisode idx, Act.clearPending, Act.forceRefresh, Act.repaint] ∧
    (∀ ok : Bool, (apply_volume_change t false ok).trace =
      [Act.logMsg, Act.logError, Act.clearPending]) ∧
    (∀ ok : Bool, (apply_scrub_change t false ok).trace =
      [Act.logMsg, Act.seek t, Act.logError, Act.forceRefresh,
       Act.clearPending, Act.repaint]) ∧
    (∀ ok1 ok2 : Bool, (apply_episode_change idx false ok1 ok2).trace =
      [Act.playEpisode idx, Act.logError, Act.clearPending]) ∧
    (∀ ok1 ok2 ok3 : Bool,
      (apply_volume_change t ok1 ok2).pending = none ∧
      (apply_scrub_change t ok1 ok2).pending = none ∧
      (apply_episode_change idx ok1 ok2 ok3).pending = none) := by
  refine ⟨rfl, rfl, rfl, ?_, ?_, ?_, ?_⟩
  · intro ok; cases ok <;> rfl
  · intro ok; cases ok <;> rfl
  · intro ok1 ok2; cases ok1 <;> cases ok2 <;> rfl
  · intro ok1 ok2 ok3
    refine ⟨?_, ?_, ?_⟩ <;> cases ok1 <;> cases ok2 <;> cases ok3 <;> rfl

/-- C9: a seek-dial (dial 1) turn handled while the cached playback
duration is 0 sets no pending scrub position, issues no device command,
and arms no timer: the pending value and the sent-command log are exactly
as before, and the timer slot is unchanged (turn ignored) or merely
cancelled — never newly armed. -/
theorem scrub_turn_zero_duration_noop (debounce : Bool) (position : Int)
    (s : ScrubState) (delta : Int) :
    (on_scrub_turn debounce position 0 s delta).pending = s.pending ∧
    (on_scrub_turn debounce position 0 s delta).sent = s.sent ∧
    ((on_scrub_turn debounce position 0 s delta).timer = s.timer ∨
     (on_scrub_turn debounce position 0 s delta).timer = none) := by
  by_cases hd : delta = 0 <;> simp [on_scrub_turn, hd]

/-- C10: every speculative control value is clamped into its valid range
before being displayed or sent: for every accumulated delta the new
pending volume lies in `[0, 100]`, the new pending scrub position lies in
`[0, duration]` (for a non-negative cached duration), and the new
brightness lies in `[0, 100]`. -/
theorem speculative_values_clamped (cur delta pos duration : Int)
    (hdur : 0 ≤ duration) :
    (0 ≤ new_vol cur delta ∧ new_vol cur delta ≤ 100) ∧
    (0 ≤ new_position duration pos delta ∧
     new_position duration pos delta ≤ duration) ∧
    (0 ≤ new_brightness cur delta ∧ new_brightness cur delta ≤ 100) := by
  unfold new_vol new_position new_brightness
  omega

/-- Witness for C10 at volume 97, delta +2, position 40, duration 300. -/
theorem speculative_values_clamped_witness :
    (0 : Int) ≤ 300 ∧
    ((0 ≤ new_vol 97 2 ∧ new_vol 97 2 ≤ 100) ∧
     (0 ≤ new_position 300 40 2 ∧ new_position 300 40 2 ≤ 300) ∧
     (0 ≤ new_brightness 97 2 ∧ new_brightness 97 2 ≤ 100)) :=
  ⟨by decide, speculative_values_clamped 97 2 40 300 (by decide)⟩

/-- C7: in every state reachable by the event-handling step relation, each
control axis (volume, scrub, episode, track-skip) has at most one live
debounce timer — every dial-turn handler cancels the axis's stored timer
before arming a new one — while timers for different axes may coexist, as
the exhibited two-event run reaching one live volume timer and one live
scrub timer simultaneously shows. -/
theorem at_most_one_timer_per_axis (debounce : Bool) (es : List DeckEvent) (a : Axis) :
    axis_live_count (deck_run debounce es) a ≤ 1 ∧
    (axis_live_count
        (deck_run true [DeckEvent.volumeTurn 1, DeckEvent.scrubTurn 1 30]) .volume = 1 ∧
     axis_live_count
        (deck_run true [DeckEvent.volumeTurn 1, DeckEvent.scrubTurn 1 30]) .scrub = 1) :=
  ⟨axis_live_count_le_one (timer_inv_run debounce es) a, by decide, by decide⟩

/-- C8: only positive playback offsets are ever persisted:
`save_position_to_db` writes a row only when the URI is non-empty and the
position strictly positive; `save_current_position` stores into the
in-memory map and the database only positive positions (preserving the
positivity of every entry of the map); and `load_positions_from_db` loads
only rows with positive positions, so a map whose entries were all
positive still has only positive entries afterwards. -/
theorem persisted_offsets_positive :
    (∀ (uri : String) (pos : Int) (row : String × Int),
      save_position_to_db uri pos = some row → row.1 ≠ "" ∧ 0 < row.2) ∧
    (∀ (m : String → Option Int) (uri : String) (pos : Int),
      (∀ u p, m u = some p → 0 < p) →
        (∀ u p, (save_current_position m uri pos).1 u = some p → 0 < p) ∧
        (∀ row : String × Int,
          (save_current_position m uri pos).2 = some row → 0 < row.2)) ∧
    (∀ (rows : List (String × Int)) (m : String → Option Int),
      (∀ u p, m u = some p → 0 < p) →
        ∀ u p, load_positions_from_db rows m u = some p → 0 < p) := by
  refine ⟨?_, ?_, ?_⟩
  · intro uri pos row h
    rw [save_position_to_db] at h
    by_cases hc : uri = "" ∨ pos ≤ 0
    · rw [if_pos hc] at h; exact Option.noConfusion h
    · rw [if_neg hc] at h
      push_neg at hc
      cases h
      exact ⟨hc.1, hc.2⟩
  · intro m uri pos hm
    rw [save_current_position]
    by_cases hc : uri ≠ "" ∧ 0 < pos
    · rw [if_pos hc]
      dsimp only
      constructor
      · intro u p hp
        rcases eq_or_ne u uri with h | h
        · subst h
          rw [Function.update_same] at hp
          cases hp
          exact hc.2
        · rw [Function.update_noteq h] at hp
          exact hm u p hp
      · intro row hrow
        rw [save_position_to_db, if_neg (by push_neg; exact ⟨hc.1, hc.2⟩)] at hrow
        cases hrow
        exact hc.2
    · rw [if_neg hc]
      exact ⟨hm, fun row hrow => Option.noConfusion hrow⟩
  · intro rows
    induction rows with
    | nil => intro m hm u p hp; exact hm u p hp
    | cons r rs ih =>
      intro m hm u p hp
      rw [load_positions_from_db, List.foldl_cons] at hp
      refine ih _ ?_ u p hp
      by_cases hr : 0 < r.2
      · rw [if_pos hr]
        intro u' p' hp'
        rcases eq_or_ne u' r.1 with h | h
        · subst h
          rw [Function.update_same] at hp'
          cases hp'
          exact hr
        · rw [Function.update_noteq h] at hp'
          exact hm u' p' hp'
      · rw [if_neg hr]
        exact hm

/-- Witness for C8 on an empty in-memory map, URI `"u"`, position 7, and
the single table row `("u", 7)`. -/
theorem persisted_offsets_positive_witness :
    (save_position_to_db "u" 7 = some ("u", 7) → ("u" : String) ≠ "" ∧ (0 : Int) < 7) ∧
    ((∀ u p, (fun _ : String => (none : Option Int)) u = some p → 0 < p) ∧
     (∀ u p, (save_current_position (fun _ => none) "u" 7).1 u = some p → 0 < p)) ∧
    (∀ u p, load_positions_from_db [("u", 7)] (fun _ => none) u = some p → 0 < p) :=
  ⟨fun h => persisted_offsets_positive.1 "u" 7 ("u", 7) h,
   ⟨fun _ _ hp => Option.noConfusion hp,
    (persisted_offsets_positive.2.1 (fun _ => none) "u" 7
      (fun _ _ hp => Option.noConfusion hp)).1⟩,
   persisted_offsets_positive.2.2 [("u", 7)] (fun _ => none)
     (fun _ _ hp => Option.noConfusion hp)⟩

/-- C6: for a feed directory of `.mp3` episode files with distinct
modification times, running the cleanup with retention count `keep`
removes exactly `M − keep` files (0 when `M ≤ keep`) — precisely the
oldest by modification time: every removed file is strictly older than
every kept file — and the kept and removed files together are exactly the
original files (nothing else created or deleted). -/
theorem cleanup_removes_oldest_beyond_keep (keep : Nat) (entries : List LocalFile)
    (hmp3 : ∀ f ∈ entries, is_mp3 f.name = true)
    (hdist : (entries.map LocalFile.mtime).Nodup) :
    (cleanup_old_episodes keep entries).2.length = entries.length - keep ∧
    (cleanup_old_episodes keep entries).1.length = min keep entries.length ∧
    (∀ f ∈ (cleanup_old_episodes keep entries).2,
     ∀ g ∈ (cleanup_old_episodes keep entries).1, f.mtime < g.mtime) ∧
    ((cleanup_old_episodes keep entries).1 ++
      (cleanup_old_episodes keep entries).2).Perm entries := by
  have hfilter : entries.filter (fun f => is_mp3 f.name) = entries :=
    List.filter_eq_self.mpr (fun f hf => hmp3 f hf)
  have hsorted : (List.insertionSort local_mtime_ge entries).Sorted local_mtime_ge :=
    List.sorted_insertionSort local_mtime_ge entries
  have hperm : (List.insertionSort local_mtime_ge entries).Perm entries :=
    List.perm_insertionSort local_mtime_ge entries
  have hsplit : (List.insertionSort local_mtime_ge entries).take keep ++
      (List.insertionSort local_mtime_ge entries).drop keep =
      List.insertionSort local_mtime_ge entries := List.take_append_drop _ _
  have hlen : (List.insertionSort local_mtime_ge entries).length = entries.length :=
    hperm.length_eq
  have key : cleanup_old_episodes keep entries =
      ((List.insertionSort local_mtime_ge entries).take keep,
       (List.insertionSort local_mtime_ge entries).drop keep) := by
    rw [cleanup_old_episodes, hfilter]
  rw [key]
  refine ⟨?_, ?_, ?_, ?_⟩
  · rw [List.length_drop, hlen]
  · rw [List.length_take, hlen]
  · -- pairwise on the take/drop split of the sorted list
    have hpw : ((List.insertionSort local_mtime_ge entries).take keep ++
        (List.insertionSort local_mtime_ge entries).drop keep).Pairwise
          local_mtime_ge := by
      rw [hsplit]; exact hsorted
    have hrel := (List.pairwise_append.mp hpw).2.2
    have hnodup : ((List.insertionSort local_mtime_ge entries).map
        LocalFile.mtime).Nodup := ((hperm.map LocalFile.mtime).nodup_iff).mpr hdist
    have hnodup2 : (((List.insertionSort local_mtime_ge entries).take keep).map
          LocalFile.mtime ++
        ((List.insertionSort local_mtime_ge entries).drop keep).map
          LocalFile.mtime).Nodup := by
      rw [← List.map_append, hsplit]; exact hnodup
    have hdisj := (List.nodup_append.mp hnodup2).2.2
    intro f hf g hg
    have hle : f.mtime ≤ g.mtime := hrel g hg f hf
    have hne : g.mtime ≠ f.mtime := by
      intro heq
      exact hdisj (List.mem_map_of_mem LocalFile.mtime hg)
        (heq ▸ List.mem_map_of_mem LocalFile.mtime hf)
    exact lt_of_le_of_ne hle (fun h => hne h.symm)
  · rw [hsplit]; exact hperm

/-- Witness for C6: three `.mp3` files with distinct modification times,
retention count 2. -/
theorem cleanup_removes_oldest_beyond_keep_witness :
    ((∀ f ∈ [LocalFile.mk "a.mp3" 3, LocalFile.mk "b.mp3" 1, LocalFile.mk "c.mp3" 2],
        is_mp3 f.name = true) ∧
     (([LocalFile.mk "a.mp3" 3, LocalFile.mk "b.mp3" 1,
        LocalFile.mk "c.mp3" 2].map LocalFile.mtime).Nodup)) ∧
    ((cleanup_old_episodes 2 [LocalFile.mk "a.mp3" 3, LocalFile.mk "b.mp3" 1,
        LocalFile.mk "c.mp3" 2]).2.length =
      [LocalFile.mk "a.mp3" 3, LocalFile.mk "b.mp3" 1,
        LocalFile.mk "c.mp3" 2].length - 2 ∧
     (cleanup_old_episodes 2 [LocalFile.mk "a.mp3" 3, LocalFile.mk "b.mp3" 1,
        LocalFile.mk "c.mp3" 2]).1.length =
      min 2 [LocalFile.mk "a.mp3" 3, LocalFile.mk "b.mp3" 1,
        LocalFile.mk "c.mp3" 2].length ∧
     (∀ f ∈ (cleanup_old_episodes 2 [LocalFile.mk "a.mp3" 3, LocalFile.mk "b.mp3" 1,
        LocalFile.mk "c.mp3" 2]).2,
      ∀ g ∈ (cleanup_old_episodes 2 [LocalFile.mk "a.mp3" 3, LocalFile.mk "b.mp3" 1,
        LocalFile.mk "c.mp3" 2]).1, f.mtime < g.mtime) ∧
     ((cleanup_old_episodes 2 [LocalFile.mk "a.mp3" 3, LocalFile.mk "b.mp3" 1,
        LocalFile.mk "c.mp3" 2]).1 ++
       (cleanup_old_episodes 2 [LocalFile.mk "a.mp3" 3, LocalFile.mk "b.mp3" 1,
        LocalFile.mk "c.mp3" 2]).2).Perm
       [LocalFile.mk "a.mp3" 3, LocalFile.mk "b.mp3" 1, LocalFile.mk "c.mp3" 2]) :=
  ⟨⟨by decide, by decide⟩,
   cleanup_removes_oldest_beyond_keep 2
     [LocalFile.mk "a.mp3" 3, LocalFile.mk "b.mp3" 1, LocalFile.mk "c.mp3" 2]
     (by decide) (by decide)⟩

/-- Three episodes of one feed with stored publication datetimes
2024-01-01, 2024-01-03, 2024-01-02 and modification times that disagree
with publication order (newest file holds the oldest episode). -/
def catalog_example : List EpisodeFile :=
  [{ basename := "2024-01-01-alpha.mp3", mtime := 30,
     mtimeIso := "2024-01-07T00:00:00",
     dbRow := some (some "2024-01-01T08:00:00", none) },
   { basename := "2024-01-03-gamma.mp3", mtime := 10,
     mtimeIso := "2024-01-05T00:00:00",
     dbRow := some (some "2024-01-03T08:00:00", none) },
   { basename := "2024-01-02-beta.mp3", mtime := 20,
     mtimeIso := "2024-01-06T00:00:00",
     dbRow := some (some "2024-01-02T08:00:00", none) }]

/-- The same three episodes when the metadata database file has never been
created: no `episode_metadata` rows exist, and `os.path.exists(db_path)`
is false. Raw directory-listing order is 2024-01-01, 2024-01-03,
2024-01-02. -/
def catalog_missing_db_example : List EpisodeFile :=
  [{ basename := "2024-01-01-alpha.mp3", mtime := 30,
     mtimeIso := "2024-01-07T00:00:00", dbRow := none },
   { basename := "2024-01-03-gamma.mp3", mtime := 10,
     mtimeIso := "2024-01-05T00:00:00", dbRow := none },
   { basename := "2024-01-02-beta.mp3", mtime := 20,
     mtimeIso := "2024-01-06T00:00:00", dbRow := none }]

/-- C5 counterexample: when the metadata database file does not exist, the
key-assignment loop never runs and no exception is raised, so every sort
key is the empty string and the stable reverse sort returns the files in
raw directory-listing order. For files named 2024-01-01, 2024-01-03,
2024-01-02 (in listing order) the catalog returns exactly that listing
order — not the descending filename-date order the claim's third key
preference demands, and the result is not sorted under the claimed
four-level key order. -/
theorem catalog_missing_db_counterexample :
    list_podcast_files false true catalog_missing_db_example =
      catalog_missing_db_example ∧
    (list_podcast_files false true catalog_missing_db_example).map
        EpisodeFile.basename =
      ["2024-01-01-alpha.mp3", "2024-01-03-gamma.mp3", "2024-01-02-beta.mp3"] ∧
    (list_podcast_files false true catalog_missing_db_example).map
        EpisodeFile.basename ≠
      ["2024-01-03-gamma.mp3", "2024-01-02-beta.mp3", "2024-01-01-alpha.mp3"] ∧
    ¬ (list_podcast_files false true catalog_missing_db_example).Sorted
        (key_ge true) := by
  refine ⟨insertionSort_missing_db catalog_missing_db_example, by decide, by decide, ?_⟩
  rw [list_podcast_files, if_pos rfl, insertionSort_missing_db]
  intro hsorted
  have h01 : key_ge true
      { basename := "2024-01-01-alpha.mp3", mtime := 30,
        mtimeIso := "2024-01-07T00:00:00", dbRow := none }
      { basename := "2024-01-03-gamma.mp3", mtime := 10,
        mtimeIso := "2024-01-05T00:00:00", dbRow := none } :=
    List.rel_of_sorted_cons hsorted _ (by simp [catalog_missing_db_example])
  exact absurd h01 (by decide)

/-- C5 (amended): the catalog assigns each local episode file an order key
by first preference the stored publication timestamp, second the stored
publication date, third the filename's leading `YYYY-MM-DD` prefix, fourth
the ISO-formatted file modification time — provided the metadata database
file exists; the returned list is then a permutation of the files sorted
descending under lexicographic (= chronological) string comparison of
those keys, so the example episodes dated 2024-01-01, 2024-01-02,
2024-01-03 come back newest-first regardless of file creation order. When
the database file does not exist, no exception is raised, every sort key
is the empty string, and the stable sort returns the files in raw
directory-listing order. When the metadata-store lookup raises, the whole
list falls back to modification-time ordering. -/
theorem catalog_orders_newest_first :
    (∀ files : List EpisodeFile,
      (list_podcast_files true true files).Perm files ∧
      (list_podcast_files true true files).Sorted (key_ge true) ∧
      list_podcast_files false true files = files ∧
      (∀ dbExists : Bool,
        (list_podcast_files dbExists false files).Perm files ∧
        (list_podcast_files dbExists false files).Sorted mtime_ge)) ∧
    (∀ f : EpisodeFile, file_key true f = order_key f ∧ file_key false f = "") ∧
    (∀ (f : EpisodeFile) (dt : String) (d : Option String),
      f.dbRow = some (some dt, d) → dt ≠ "" → order_key f = dt) ∧
    (∀ (f : EpisodeFile) (dt : Option String) (d : String),
      f.dbRow = some (dt, some d) → truthy dt = false → d ≠ "" →
        order_key f = d) ∧
    (∀ (f : EpisodeFile) (dt d : Option String),
      f.dbRow = some (dt, d) → truthy dt = false → truthy d = false →
        filename_date_ok f.basename = true → order_key f = f.basename.take 10) ∧
    (∀ f : EpisodeFile, f.dbRow = none → filename_date_ok f.basename = true →
      order_key f = f.basename.take 10) ∧
    (∀ f : EpisodeFile, f.dbRow = none → filename_date_ok f.basename = false →
      order_key f = f.mtimeIso) ∧
    (list_podcast_files true true catalog_example).map EpisodeFile.basename =
      ["2024-01-03-gamma.mp3", "2024-01-02-beta.mp3", "2024-01-01-alpha.mp3"] ∧
    (list_podcast_files true false catalog_example).map EpisodeFile.basename =
      ["2024-01-01-alpha.mp3", "2024-01-02-beta.mp3", "2024-01-03-gamma.mp3"] := by
  refine ⟨?_, ?_, ?_, ?_, ?_, ?_, ?_, by decide, by decide⟩
  · intro files
    refine ⟨by simpa [list_podcast_files] using
        List.perm_insertionSort (key_ge true) files,
      by simpa [list_podcast_files] using
        List.sorted_insertionSort (key_ge true) files,
      by simpa [list_podcast_files] using insertionSort_missing_db files,
      ?_⟩
    intro dbExists
    exact ⟨by simpa [list_podcast_files] using List.perm_insertionSort mtime_ge files,
      by simpa [list_podcast_files] using List.sorted_insertionSort mtime_ge files⟩
  · intro f
    exact ⟨by simp [file_key], by simp [file_key]⟩
  · intro f dt d hrow hne
    rw [order_key, hrow]
    have ht : truthy (some dt) = true := by simp [truthy, hne]
    simp [ht]
  · intro f dt d hrow hdt hne
    rw [order_key, hrow]
    have ht : truthy (some d) = true := by simp [truthy, hne]
    simp [hdt, ht]
  · intro f dt d hrow hdt hd hfn
    rw [order_key, hrow]
    simp [hdt, hd, hfn]
  · intro f hrow hfn
    rw [order_key, hrow]
    simp [hfn]
  · intro f hrow hfn
    rw [order_key, hrow]
    simp [hfn]

/-- Witness for C5: the key-preference conjuncts applied to a file with a
stored publication datetime, a file with only a publication date, a file
with an empty-string datetime column, and files resolved from filename or
modification time. -/
theorem catalog_orders_newest_first_witness :
    order_key (EpisodeFile.mk "x.mp3" 0 "i"
        (some (some "2024-02-02T01:00:00", some "2024-02-01"))) =
      "2024-02-02T01:00:00" ∧
    order_key (EpisodeFile.mk "x.mp3" 0 "i" (some (none, some "2024-02-01"))) =
      "2024-02-01" ∧
    order_key (EpisodeFile.mk "2024-03-04-ep.mp3" 0 "i" (some (some "", none))) =
      "2024-03-04-ep.mp3".take 10 ∧
    order_key (EpisodeFile.mk "2024-03-04-ep.mp3" 0 "i" none) =
      "2024-03-04-ep.mp3".take 10 ∧
    order_key (EpisodeFile.mk "ep.mp3" 0 "2024-03-05T00:00:00" none) =
      "2024-03-05T00:00:00" :=
  ⟨catalog_orders_newest_first.2.2.1 _ "2024-02-02T01:00:00" (some "2024-02-01")
      rfl (by decide),
   catalog_orders_newest_first.2.2.2.1 _ none "2024-02-01" rfl (by decide) (by decide),
   catalog_orders_newest_first.2.2.2.2.1 _ (some "") none rfl (by decide) (by decide)
      (by decide),
   catalog_orders_newest_first.2.2.2.2.2.1 _ rfl (by decide),
   catalog_orders_newest_first.2.2.2.2.2.2.1 _ rfl (by decide)⟩

end PodPlayer
